import Mathlib

/-!
Verification of the Snapchat story downloader bot (files `config.py`,
`snapchat_downloader.py`, `telegram_bot.py`) against its natural-language
specification.  The Python code is shallowly embedded: JSON values become an
inductive type, Python dictionaries become association lists / finitely
supported maps, floats (timestamps) become rationals, exceptions become
`Except`, and the external libraries (`json.loads`, `BeautifulSoup`,
`re.findall` for the direct-URL patterns, `aiohttp` responses) are modelled at
the boundary: parsed JSON blocks and HTTP responses are inputs, while the
fixed regex patterns of `_extract_direct_urls` are embedded as an explicit
scanner.
-/

namespace Snap

/-! ## Generic helpers (explicit, so every proof is by plain induction) -/

/-- Concatenation of the images of `f`, i.e. Python's nested list appends. -/
def concatMap (f : α → List β) : List α → List β
  | [] => []
  | x :: l => f x ++ concatMap f l

theorem concatMap_append (f : α → List β) (l₁ l₂ : List α) :
    concatMap f (l₁ ++ l₂) = concatMap f l₁ ++ concatMap f l₂ := by
  induction l₁ with
  | nil => rfl
  | cons x l ih => simp [concatMap, ih]

theorem concatMap_map (f : β → List γ) (g : α → β) (l : List α) :
    concatMap f (l.map g) = concatMap (fun x => f (g x)) l := by
  induction l with
  | nil => rfl
  | cons x l ih => simp [concatMap, ih]

theorem concatMap_congr {f g : α → List β} {l : List α}
    (h : ∀ x ∈ l, f x = g x) : concatMap f l = concatMap g l := by
  induction l with
  | nil => rfl
  | cons x l ih =>
    simp only [concatMap]
    rw [h x (by simp), ih (fun y hy => h y (by simp [hy]))]

theorem mem_concatMap {f : α → List β} {l : List α} {b : β}
    (x : α) (hx : x ∈ l) (hb : b ∈ f x) : b ∈ concatMap f l := by
  induction l with
  | nil => cases hx
  | cons y l ih =>
    simp only [concatMap, List.mem_append]
    rcases List.mem_cons.mp hx with h | h
    · exact Or.inl (h ▸ hb)
    · exact Or.inr (ih h)

/-- Exact-case "is a leading segment of" test on character lists
(model of Python's `str.startswith`). -/
def isPre : List Char → List Char → Bool
  | [], _ => true
  | _ :: _, [] => false
  | a :: as, b :: bs => a = b && isPre as bs

theorem isPre_trans {a b c : List Char} (h₁ : isPre a b = true)
    (h₂ : isPre b c = true) : isPre a c = true := by
  induction a generalizing b c with
  | nil => rfl
  | cons x as ih =>
    cases b with
    | nil => simp [isPre] at h₁
    | cons y bs =>
      cases c with
      | nil => simp [isPre] at h₂
      | cons z cs =>
        simp only [isPre, Bool.and_eq_true, decide_eq_true_eq] at h₁ h₂ ⊢
        exact ⟨h₁.1.trans h₂.1, ih h₁.2 h₂.2⟩

/-- Exact-case "occurs somewhere inside" test (model of Python's `in` on
strings). -/
def isInf : List Char → List Char → Bool
  | n, [] => isPre n []
  | n, c :: rest => isPre n (c :: rest) || isInf n rest

/-- Python `needle in hay` for strings. -/
def strContains (hay needle : String) : Bool := isInf needle.data hay.data

/-- Python `s.startswith(p)`. -/
def pyStartswith (s p : String) : Bool := isPre p.data s.data

/-- Python `s.lower()` (character-wise, as for the ASCII data at hand). -/
def pyStrLower (s : String) : String := String.mk (s.data.map Char.toLower)

/-! ## JSON values (the result of `json.loads`)

Objects are association lists; they represent Python dicts, whose keys are
unique. `null` doubles as Python's `None` (which is what `json.loads` maps
JSON `null` to, and what `dict.get` returns for a missing key). -/

inductive Json where
  | null : Json
  | bool : Bool → Json
  | num : Int → Json
  | str : String → Json
  | arr : List Json → Json
  | obj : List (String × Json) → Json

/-- Python `==` restricted to the hashable scalar values — the only values
that ever reach a set-membership test in this code (container values raise
`TypeError` at the hash first, and the numeric `True == 1` cross-type cases
are unreachable for urls, which are strings whenever they are scalar). -/
def scalarEq : Json → Json → Bool
  | .null, .null => true
  | .bool a, .bool b => a == b
  | .num a, .num b => a == b
  | .str a, .str b => a == b
  | _, _ => false

/-- Is this JSON value a string? -/
def isStrVal : Json → Bool
  | .str _ => true
  | _ => false

/-! ## Configuration constants (`config.py`, lines 13, 16, 26) -/

namespace config

def MAX_FILE_SIZE : Nat := 100 * 1024 * 1024

def TEMP_DIR : String := "/tmp/snap_downloads"

def REQUESTS_PER_MINUTE : Nat := 20

end config

/-! ## MediaItem

The Python code builds plain dicts with slightly different key sets per
strategy (`thumbnail`/`description` only from JSON-LD, `source` only from the
embedded-state walk).  We use one structure with `null`/`none` standing for an
absent key; only `url` and `type` are read downstream. In the pathological
structured-data paths `url` can be a non-string JSON value, so the field has
type `Json`. -/

structure MediaItem where
  url : Json
  type : String
  thumbnail : Json := Json.null
  description : Json := Json.null
  source : Option String := none

/-! ## Python-semantics helpers used by `_parse_json_item` -/

/-- Exceptions that the embedded fragments of Python can raise. -/
inductive PyErr where
  | nameError : PyErr
  | typeError : PyErr
  | attributeError : PyErr

/-- Python truthiness of a JSON value. -/
def pyTruthy : Json → Bool
  | .null => false
  | .bool b => b
  | .num n => n != 0
  | .str s => s != ""
  | .arr l => !l.isEmpty
  | .obj l => !l.isEmpty

/-- `d.get(k)`: `None` when the key is missing. -/
def pyGet (kvs : List (String × Json)) (k : String) : Json :=
  (List.lookup k kvs).getD .null

/-- `d.get(k, default)`. -/
def pyGetD (kvs : List (String × Json)) (k : String) (dflt : Json) : Json :=
  (List.lookup k kvs).getD dflt

/-- `v.lower()`: only strings have `.lower`; anything else raises
`AttributeError`. -/
def pyLower : Json → Except PyErr String
  | .str s => .ok (pyStrLower s)
  | _ => .error .attributeError

/-- Python `x in v` for a string `x`: substring test on strings, element
membership on lists, key membership on dicts, `TypeError` otherwise. -/
def pyIn (x : String) : Json → Except PyErr Bool
  | .str s => .ok (strContains s x)
  | .arr l => .ok (l.any (fun e => scalarEq e (.str x)))
  | .obj kvs => .ok (kvs.any (fun kv => kv.1 == x))
  | _ => .error .typeError

/-- `v[:100]`: slicing works on strings and lists, raises `TypeError`
otherwise. -/
def pySlice100 : Json → Except PyErr Json
  | .str s => .ok (.str (String.mk (s.data.take 100)))
  | .arr l => .ok (.arr (l.take 100))
  | _ => .error .typeError

/-- `'http://' in url or 'https://' in url`, with Python's short-circuit. -/
def schemeCheck (url : Json) : Except PyErr Bool :=
  match pyIn "http://" url with
  | .error e => .error e
  | .ok true => .ok true
  | .ok false => pyIn "https://" url

/-! ## Strategy 1: JSON-LD structured data
(`snapchat_downloader.py` lines 71–104)

`BeautifulSoup` and `json.loads` are external libraries, so this strategy's
input is the list of `application/ld+json` script blocks *after* the
`json.loads` attempt: `none` is a block that raised `JSONDecodeError` (caught
by the inner `except` and skipped), `some d` a block that parsed to `d`. -/

/-- `url = item.get('contentUrl') or item.get('url')` (line 97). -/
def jsonLdUrl (kvs : List (String × Json)) : Json :=
  if pyTruthy (pyGet kvs "contentUrl") then pyGet kvs "contentUrl"
  else pyGet kvs "url"

/-- `_parse_json_item` (lines 92–104): appends at most one item, or raises
(`AttributeError` on `.get`/`.lower` of a non-dict/non-string, `TypeError`
on `in`/slicing of unsupported values). -/
def parse_json_item (item : Json) : Except PyErr (Option MediaItem) :=
  match item with
  | .obj kvs =>
    match pyLower (pyGetD kvs "@type" (.str "")) with
    | .error e => .error e
    | .ok item_type =>
      if item_type = "videoobject" ∨ item_type = "imageobject" then
        if pyTruthy (jsonLdUrl kvs) then
          match schemeCheck (jsonLdUrl kvs) with
          | .error e => .error e
          | .ok false => .ok none
          | .ok true =>
            match pySlice100 (pyGetD kvs "description" (.str "")) with
            | .error e => .error e
            | .ok desc =>
              .ok (some { url := jsonLdUrl kvs
                          type := if strContains item_type "video" then "video" else "image"
                          thumbnail := pyGet kvs "thumbnailUrl"
                          description := desc })
        else .ok none
      else .ok none
  | _ => .error .attributeError

/-- The `for item in data: self._parse_json_item(item, items)` loop: items
appended before an exception survive; the exception aborts the rest.  The
`Bool` is "an exception escaped". -/
def parse_items : List Json → List MediaItem × Bool
  | [] => ([], false)
  | it :: rest =>
    match parse_json_item it with
    | .error _ => ([], true)
    | .ok none => parse_items rest
    | .ok (some mi) => (mi :: (parse_items rest).1, (parse_items rest).2)

/-- One parsed script block (lines 81–85): a JSON list is iterated, a JSON
dict is parsed directly, anything else is ignored. -/
def parse_block (d : Json) : List MediaItem × Bool :=
  match d with
  | .arr l => parse_items l
  | .obj _ =>
    match parse_json_item d with
    | .error _ => ([], true)
    | .ok none => ([], false)
    | .ok (some mi) => ([mi], false)
  | _ => ([], false)

/-- `_extract_json_ld` (lines 71–90).  A block that failed `json.loads`
(`none`) is skipped by the inner `except json.JSONDecodeError: continue`; any
other exception propagates to the outer `except Exception: pass`, which stops
the whole loop and returns the items collected so far. -/
def extract_json_ld : List (Option Json) → List MediaItem
  | [] => []
  | none :: rest => extract_json_ld rest
  | some d :: rest =>
    if (parse_block d).2 then (parse_block d).1
    else (parse_block d).1 ++ extract_json_ld rest

/-! ## Strategy 2: embedded-state JSON traversal
(`snapchat_downloader.py` lines 106–154)

The four `window.__INITIAL_STATE__`-style regexes and `json.loads` are the
external boundary: the strategy's input is the list of captured fragments
after the parse attempt, `none` for a fragment whose `json.loads` raised
(skipped by the bare `except: continue`). -/

def media_keys : List String := ["url", "video", "image", "media", "src"]

/-- `any(media_key in key_lower for media_key in [...])`. -/
def mediaKeyHit (key_lower : String) : Bool :=
  media_keys.any (fun mk => strContains key_lower mk)

/-- The item built at line 142–146. -/
def traverseItem (key_lower s : String) : MediaItem :=
  { url := .str s
    type := if strContains key_lower "video" then "video" else "image"
    source := some "json" }

/-- `_traverse_json_for_media` (lines 129–154), with the `depth`/`max_depth`
pair of the source re-expressed as the remaining fuel `11 - depth`: the guard
`depth > max_depth` (`max_depth = 10`, never overridden) is exactly
`fuel = 0`, and every recursive call passes `depth + 1`, i.e. `fuel - 1`.
Note the `elif`: a value under a media-named key is *not* recursed into. -/
def traverse_go : Nat → Json → List MediaItem
  | 0, _ => []
  | fuel + 1, data =>
    match data with
    | .obj kvs =>
      concatMap (fun kv =>
        let key_lower := pyStrLower kv.1
        if mediaKeyHit key_lower then
          match kv.2 with
          | .str s => if pyStartswith s "http" then [traverseItem key_lower s] else []
          | _ => []
        else
          match kv.2 with
          | .obj _ => traverse_go fuel kv.2
          | .arr _ => traverse_go fuel kv.2
          | _ => []) kvs
    | .arr l => concatMap (fun x => traverse_go fuel x) l
    | _ => []

/-- `_traverse_json_for_media(data, depth)` with the default `max_depth = 10`. -/
def traverse_json_for_media (data : Json) (depth : Nat) : List MediaItem :=
  traverse_go (11 - depth) data

/-- `_extract_js_data` (lines 106–127): each fragment that parsed is walked
from depth 0; fragments that failed to parse contribute nothing. -/
def extract_js_data (frags : List (Option Json)) : List MediaItem :=
  concatMap (fun f =>
    match f with
    | none => []
    | some d => traverse_json_for_media d 0) frags

/-- Truncation of a JSON value to `n` levels (the root is level 1; everything
at level > n is replaced by `null`).  Used to state that the traversal never
looks below its depth bound. -/
def prune : Nat → Json → Json
  | 0, _ => .null
  | n + 1, .obj kvs => .obj (kvs.map (fun kv => (kv.1, prune n kv.2)))
  | n + 1, .arr l => .arr (l.map (prune n))
  | _ + 1, x => x

/-! ## Strategy 3: direct URL patterns
(`snapchat_downloader.py` lines 156–186)

Each of the ten regexes has the shape

  `LITERAL₁ ( [^>]+ LITERAL₂ )? "(https://[^"]+\.EXT[^"]*)"`

(the optional `[^>]+ LITERAL₂` gap occurs only in the `<source…src="` and
`<img…src="` patterns).  They are matched with `re.IGNORECASE`.  We embed
`re.findall` for this fixed shape: scan left to right; at a hit, the capture
is the literal-case text from the `https://` up to (excluding) the next `"`,
required to contain `.EXT` at offset ≥ 1 after the scheme (that is
`[^"]+\.EXT[^"]*` with greedy backtracking, which always extends to the
closing quote); scanning resumes after the match, and the `[^>]+` gap is
tried greedily, longest first. -/

/-- Case-insensitive character equality (`re.IGNORECASE`). -/
def ciEq (a b : Char) : Bool := a.toLower == b.toLower

/-- Strip a case-insensitive literal, returning the matched original-case
characters and the remainder. -/
def ciSplitPre : List Char → List Char → Option (List Char × List Char)
  | [], l => some ([], l)
  | _ :: _, [] => none
  | p :: ps, c :: cs =>
    if ciEq p c then
      match ciSplitPre ps cs with
      | none => none
      | some (m, r) => some (c :: m, r)
    else none

/-- Case-insensitive containment. -/
def ciInf : List Char → List Char → Bool
  | n, [] => n.isEmpty
  | n, c :: rest => (ciSplitPre n (c :: rest)).isSome || ciInf n rest

/-- Match `(https://[^"]+\.EXT[^"]*)"` at the current position; on success
return the capture and the text after the closing quote.  The capture is the
scheme match plus the whole run of non-quote characters (the greedy
`[^"]+\.EXT[^"]*` always extends to the character before the next `"`),
required to contain `.EXT` at offset ≥ 1, with a closing `"` present. -/
def captureAt (ext : List Char) (l2 : List Char) : Option (String × List Char) :=
  match ciSplitPre "https://".data l2 with
  | none => none
  | some (m, rest2) =>
    match rest2.drop (rest2.takeWhile (fun c => c != '"')).length with
    | [] => none
    | c :: after2 =>
      if c = '"' then
        if ciInf ext ((rest2.takeWhile (fun c => c != '"')).drop 1) then
          some (String.mk (m ++ rest2.takeWhile (fun c => c != '"')), after2)
        else none
      else none

/-- Greedy `[^>]+ LITERAL₂` gap: try the longest gap first (`n + 1` is the
gap length), backtracking to shorter gaps. -/
def tryGaps (pre2 ext : List Char) (l1 : List Char) : Nat → Option (String × List Char)
  | 0 => none
  | n + 1 =>
    match ciSplitPre pre2 (l1.drop (n + 1)) with
    | some (_, l2) =>
      match captureAt ext l2 with
      | some r => some r
      | none => tryGaps pre2 ext l1 n
    | none => tryGaps pre2 ext l1 n

/-- One of the ten source regexes, by shape. -/
structure UrlPattern where
  pre1 : List Char
  gap : Bool
  pre2 : List Char

/-- Try to match the pattern exactly at the head of `l`. -/
def matchAt (p : UrlPattern) (ext : List Char) (l : List Char) :
    Option (String × List Char) :=
  match ciSplitPre p.pre1 l with
  | none => none
  | some (_, l1) =>
    if p.gap then
      tryGaps p.pre2 ext l1 ((l1.takeWhile (fun c => c != '>')).length)
    else captureAt ext l1

/-- Left-to-right non-overlapping scan (`re.findall`).  The fuel starts at
the text length; every step either consumes the head or a whole match, so
the fuel never runs out before the text does. -/
def scan_go (p : UrlPattern) (ext : List Char) : Nat → List Char → List String
  | 0, _ => []
  | _ + 1, [] => []
  | fuel + 1, c :: rest =>
    match matchAt p ext (c :: rest) with
    | some (cap, rem) => cap :: scan_go p ext fuel (rest.drop (rest.length - rem.length))
    | none => scan_go p ext fuel rest

/-- `re.findall(pattern, html, re.IGNORECASE)` for one source pattern. -/
def scanP (p : UrlPattern) (ext : List Char) (html : String) : List String :=
  scan_go p ext html.data.length html.data

/-- The five `video_patterns` of lines 161–167, in order. -/
def video_patterns : List UrlPattern :=
  [⟨"\"videoUrl\":\"".data, false, []⟩,
   ⟨"src=\"".data, false, []⟩,
   ⟨"data-video-url=\"".data, false, []⟩,
   ⟨"property=\"og:video\" content=\"".data, false, []⟩,
   ⟨"<source".data, true, "src=\"".data⟩]

/-- The five `image_patterns` of lines 170–176, in order. -/
def image_patterns : List UrlPattern :=
  [⟨"\"imageUrl\":\"".data, false, []⟩,
   ⟨"src=\"".data, false, []⟩,
   ⟨"data-image-url=\"".data, false, []⟩,
   ⟨"property=\"og:image\" content=\"".data, false, []⟩,
   ⟨"<img".data, true, "src=\"".data⟩]

/-- `_extract_direct_urls` (lines 156–186): all video-pattern matches, then
all image-pattern matches. -/
def extract_direct_urls (html : String) : List MediaItem :=
  concatMap (fun p => (scanP p ".mp4".data html).map
    (fun u => ({ url := .str u, type := "video" } : MediaItem))) video_patterns ++
  concatMap (fun p => (scanP p ".jpg".data html).map
    (fun u => ({ url := .str u, type := "image" } : MediaItem))) image_patterns

/-! ## The extraction pipeline: `fetch_public_content`
(`snapchat_downloader.py` lines 45–65; the network part, lines 19–43, is the
external boundary, so the pipeline takes the parsed strategy inputs) -/

/-- A value Python cannot hash (`set` membership raises `TypeError`). -/
def unhashable : Json → Bool
  | .arr _ => true
  | .obj _ => true
  | _ => false

/-- The de-duplication loop of lines 57–63.  `item['url'] not in seen_urls`
hashes the url first (`TypeError` on list/dict urls, which escapes to the
handler at line 67); membership and insertion use Python `==` on the scalar
urls. -/
def dedupPy : List MediaItem → List Json → Except PyErr (List MediaItem)
  | [], _ => .ok []
  | it :: rest, seen =>
    if unhashable it.url then .error .typeError
    else if seen.any (scalarEq it.url) then dedupPy rest seen
    else
      match dedupPy rest (it.url :: seen) with
      | .ok l => .ok (it :: l)
      | .error e => .error e

/-- `media_items` after the three strategies ran in order (lines 46–55). -/
def all_media_items (blocks frags : List (Option Json)) (html : String) :
    List MediaItem :=
  extract_json_ld blocks ++ extract_js_data frags ++ extract_direct_urls html

/-- Lines 45–65 (plus the enclosing `except Exception` at line 67, which
turns the dedup `TypeError` into `[]`): concatenate, de-duplicate, cap at
15. -/
def fetch_public_content (blocks frags : List (Option Json)) (html : String) :
    List MediaItem :=
  match dedupPy (all_media_items blocks frags html) [] with
  | .ok unique_items => unique_items.take 15
  | .error _ => []

/-- Spec-side restatement of the de-duplication ("keep the first occurrence
of each url, in discovery order"), to be compared with `dedupPy`. -/
def dedupFirstSeen : List MediaItem → List Json → List MediaItem
  | [], _ => []
  | it :: rest, seen =>
    if seen.any (scalarEq it.url) then dedupFirstSeen rest seen
    else it :: dedupFirstSeen rest (it.url :: seen)

/-! ## `download_media` (`snapchat_downloader.py` lines 188–235) -/

/-- The names bound at module level of `snapchat_downloader.py` by its import
statements (lines 1–11) and its class statement — the namespace in which
`config.TEMP_DIR` at line 215 is resolved. -/
def downloaderModuleNames : List String :=
  ["aiohttp", "asyncio", "re", "json", "hashlib", "Dict", "List", "Optional",
   "Tuple", "BeautifulSoup", "aiofiles", "Path", "time", "urlparse", "unquote",
   "SnapchatDownloader"]

/-- An HTTP response as `download_media` observes it: status, `Content-Type`
header, and the sizes of the chunks `iter_chunked(8192)` would yield. -/
structure HttpResponse where
  status : Nat
  contentType : String
  chunks : List Nat

/-- The chunk loop of lines 218–230 once the file is open: write each
non-empty chunk, accumulate the size, and on exceeding the ceiling close,
delete the file and return `None` (modelled `none`); `some total` means the
stream completed with a file of `total` bytes on disk. -/
def stream_chunks (maxSize : Nat) : List Nat → Nat → Option Nat
  | [], total => some total
  | c :: rest, total =>
    if c != 0 then
      let t := total + c
      if maxSize < t then none else stream_chunks maxSize rest t
    else stream_chunks maxSize rest total

/-- Exact-case strip of a literal, returning the remainder. -/
def dropLit : List Char → List Char → Option (List Char)
  | [], l => some l
  | _ :: _, [] => none
  | p :: ps, c :: cs => if p = c then dropLit ps cs else none

/-- The text after the first occurrence of a (non-empty) marker. -/
def afterMarker (m : List Char) : List Char → Option (List Char)
  | [] => none
  | c :: rest =>
    match dropLit m (c :: rest) with
    | some r => some r
    | none => afterMarker m rest

/-- Model of `urllib.parse.urlparse(url).path` (external library): the text
after the scheme and authority, up to any query or fragment. -/
def urlPathOf (url : String) : String :=
  let cs := url.data
  let pathPart :=
    match afterMarker "://".data cs with
    | some r => r.dropWhile (fun c => c != '/')
    | none => cs
  String.mk (pathPart.takeWhile (fun c => c != '?' && c != '#'))

/-- Model of `pathlib.Path(p).suffix` (external library): the last
`.`-extension of the final component, empty when there is none or the
component starts with the dot. -/
def pathSuffix (p : String) : String :=
  let name := (p.data.reverse.takeWhile (fun c => c != '/')).reverse
  match name with
  | [] => ""
  | _ :: tl =>
    if tl.contains '.' then
      String.mk ('.' :: (tl.reverse.takeWhile (fun c => c != '.')).reverse)
    else ""

/-- Extension choice of lines 202–213. -/
def pickExt (contentType url : String) : String :=
  if strContains contentType "video" then ".mp4"
  else if strContains contentType "image" then
    (if strContains contentType "jpeg" then ".jpg" else ".png")
  else
    let ext := pathSuffix (urlPathOf url)
    if ext = "" then ".mp4" else ext

/-- `download_media` (lines 188–235).  The first component is the returned
path (`None`/`none` on failure), the second the files this call leaves on
disk.  Line 215 resolves the bare name `config`, which is looked up in the
module namespace; a failed lookup is a `NameError`, caught by the
`except Exception` at line 233, which returns `None` — before any file was
opened. -/
def download_media (resp : HttpResponse) (url filename : String) :
    Option String × List String :=
  if resp.status != 200 then (none, [])
  else
    let ext := pickExt resp.contentType url
    if downloaderModuleNames.contains "config" then
      let filepath := config.TEMP_DIR ++ "/" ++ filename ++ ext
      match stream_chunks config.MAX_FILE_SIZE resp.chunks 0 with
      | none => (none, [])
      | some total =>
        if 0 < total then (some filepath, [filepath]) else (none, [filepath])
    else (none, [])

/-! ## `RateLimiter` (`telegram_bot.py` lines 24–64)

Timestamps (`datetime.now().timestamp()`, a float) are modelled as rationals;
the per-user dict becomes a finitely-observed map `Int → Option (List ℚ)`. -/

structure RateLimiter where
  user_requests : Int → Option (List ℚ)

/-- The fresh limiter of `__init__` (`self.user_requests = {}`). -/
def initLimiter : RateLimiter := ⟨fun _ => none⟩

/-- `is_allowed` (lines 29–47): install `[]` for an unknown user, prune
entries ≥ 60 s old, reject (keeping the pruned list) at the ceiling,
otherwise record `current_time` and accept. -/
def is_allowed (rl : RateLimiter) (user_id : Int) (current_time : ℚ) :
    Bool × RateLimiter :=
  let reqs := (rl.user_requests user_id).getD []
  let valid := reqs.filter (fun t => decide (current_time - t < 60))
  if config.REQUESTS_PER_MINUTE ≤ valid.length then
    (false, ⟨fun u => if u = user_id then some valid else rl.user_requests u⟩)
  else
    (true, ⟨fun u => if u = user_id then some (valid ++ [current_time])
                     else rl.user_requests u⟩)

/-- Python `min` over a non-empty list. -/
def listFoldMin (x : ℚ) (l : List ℚ) : ℚ := l.foldl min x

/-- `get_wait_time` (lines 49–64). -/
def get_wait_time (rl : RateLimiter) (user_id : Int) (current_time : ℚ) : ℚ :=
  match rl.user_requests user_id with
  | none => 0
  | some reqs =>
    match reqs.filter (fun t => decide (current_time - t < 60)) with
    | [] => 0
    | t :: ts => max 0 (60 - (current_time - listFoldMin t ts))

/-- A sequence of `is_allowed` checks by one user at the given instants. -/
def run_requests (u : Int) : RateLimiter → List ℚ → List Bool × RateLimiter
  | rl, [] => ([], rl)
  | rl, t :: ts =>
    let r := is_allowed rl u t
    let w := run_requests u r.2 ts
    (r.1 :: w.1, w.2)

/-! ## Delivery loop of `handle_message` (`telegram_bot.py` lines 283–336)

Per item, the loop calls `download_media` and then the external Telegram
relay; both are collaborator calls from the handler's perspective, so each
item carries its fetch result and whether the relay raised. -/

structure ItemAttempt where
  fetched : Option String
  relayOk : Bool

/-- The `for idx, item in enumerate(media_items[:10])` body: a `continue` on
a missing file, a `try/except: continue` around the relay; returns the final
`success_count` and the indices actually relayed. -/
def delivery_loop : List ItemAttempt → Nat → Nat × List Nat
  | [], _ => (0, [])
  | a :: rest, idx =>
    match a.fetched with
    | none => delivery_loop rest (idx + 1)
    | some _ =>
      if a.relayOk then
        let w := delivery_loop rest (idx + 1)
        (w.1 + 1, idx :: w.2)
      else delivery_loop rest (idx + 1)

/-- Lines 283–331: the bounded loop plus the final summary
`(found, succeeded, failed, relayed indices)` with
`failed = found - succeeded`. -/
def handle_delivery (items : List ItemAttempt) : Nat × Nat × Nat × List Nat :=
  let w := delivery_loop (items.take 10) 0
  (items.length, w.1, items.length - w.1, w.2)

/-! ## Helper lemmas -/

/-- `download_media` can only ever return `None` and leave no file: the name
`config` is not bound in the downloader module, so line 215 raises
`NameError` before the file is opened, and the handler returns `None`. -/
theorem download_media_eq_none (resp : HttpResponse) (url filename : String) :
    download_media resp url filename = (none, []) := by
  unfold download_media
  split
  · rfl
  · rw [if_neg (by decide)]

/-- Once the cumulative size must exceed the ceiling, the chunk loop aborts
and deletes the file. -/
theorem stream_chunks_eq_none_of_big :
    ∀ (l : List Nat) (total : Nat), total ≤ config.MAX_FILE_SIZE →
      config.MAX_FILE_SIZE < total + l.sum →
      stream_chunks config.MAX_FILE_SIZE l total = none := by
  intro l
  induction l with
  | nil => intro total h₁ h₂; simp only [List.sum_nil] at h₂; omega
  | cons c rest ih =>
    intro total h₁ h₂
    simp only [List.sum_cons] at h₂
    rw [stream_chunks]
    rcases Nat.eq_zero_or_pos c with h0 | hpos
    · subst h0
      rw [if_neg (by simp)]
      exact ih total h₁ (by omega)
    · rw [if_pos (by simpa [bne_iff_ne] using Nat.pos_iff_ne_zero.mp hpos)]
      by_cases hbig : config.MAX_FILE_SIZE < total + c
      · rw [if_pos hbig]
      · rw [if_neg hbig]
        exact ih (total + c) (by omega) (by omega)

/-- Python `min` of a non-empty list is one of its elements. -/
theorem listFoldMin_mem : ∀ (l : List ℚ) (x : ℚ), listFoldMin x l ∈ x :: l := by
  intro l
  induction l with
  | nil => intro x; simp [listFoldMin]
  | cons y l ih =>
    intro x
    have heq : listFoldMin x (y :: l) = listFoldMin (min x y) l := rfl
    rw [heq]
    rcases List.mem_cons.mp (ih (min x y)) with h | h
    · rw [h]
      rcases min_choice x y with h' | h' <;> rw [h']
      · exact List.mem_cons_self _ _
      · exact List.mem_cons_of_mem _ (List.mem_cons_self _ _)
    · exact List.mem_cons_of_mem _ (List.mem_cons_of_mem _ h)

/-! ## Claims -/

/-- **C2.** For every url and filename, `download_media` returns `None` and
creates no file: the downloader module never imports the configuration
object, so evaluating `config.TEMP_DIR` when building the destination path
raises a `NameError` before any file is opened, and the surrounding
exception handler converts it to `None`; in particular `download_media` can
never return a path. -/
theorem download_media_never_returns_path :
    downloaderModuleNames.contains "config" = false ∧
    ∀ (resp : HttpResponse) (url filename : String),
      download_media resp url filename = (none, []) :=
  ⟨by decide, download_media_eq_none⟩

/-- **C7.** A fetch whose cumulative streamed byte count exceeds the
configured maximum file size returns absence and leaves no file on disk;
in the chunk loop itself, exceeding the ceiling mid-stream aborts and
deletes the partially written file (`stream_chunks … = none`). -/
theorem download_media_oversize_aborts (resp : HttpResponse)
    (url filename : String) (h : config.MAX_FILE_SIZE < resp.chunks.sum) :
    download_media resp url filename = (none, []) ∧
    stream_chunks config.MAX_FILE_SIZE resp.chunks 0 = none :=
  ⟨download_media_eq_none resp url filename,
   stream_chunks_eq_none_of_big resp.chunks 0 (Nat.zero_le _) (by simpa using h)⟩

/-- Witness for C7 at a concrete oversize response. -/
theorem download_media_oversize_aborts_witness :
    download_media ⟨200, "video/mp4", [104857601]⟩ "https://x/v.mp4" "f" = (none, []) ∧
    stream_chunks config.MAX_FILE_SIZE [104857601] 0 = none :=
  download_media_oversize_aborts ⟨200, "video/mp4", [104857601]⟩ "https://x/v.mp4" "f"
    (by norm_num [config.MAX_FILE_SIZE])

/-- **C8.** In a delivery with 5 found items where exactly the 3rd per-item
fetch-or-relay fails, the remaining 4 items are still relayed (indices 0, 1,
3, 4) and the summary reports found 5, succeeded 4, failed 1 (failed =
found − succeeded). -/
theorem delivery_third_of_five_fails (a b c d e : ItemAttempt)
    (ha : a.fetched.isSome = true ∧ a.relayOk = true)
    (hb : b.fetched.isSome = true ∧ b.relayOk = true)
    (hc : c.fetched = none ∨ c.relayOk = false)
    (hd : d.fetched.isSome = true ∧ d.relayOk = true)
    (he : e.fetched.isSome = true ∧ e.relayOk = true) :
    handle_delivery [a, b, c, d, e] = (5, 4, 1, [0, 1, 3, 4]) := by
  obtain ⟨xa, hxa⟩ := Option.isSome_iff_exists.mp ha.1
  obtain ⟨xb, hxb⟩ := Option.isSome_iff_exists.mp hb.1
  obtain ⟨xd, hxd⟩ := Option.isSome_iff_exists.mp hd.1
  obtain ⟨xe, hxe⟩ := Option.isSome_iff_exists.mp he.1
  rcases hc with hc | hc
  · simp [handle_delivery, delivery_loop, hxa, ha.2, hxb, hb.2, hc, hxd, hd.2,
      hxe, he.2]
  · rcases hfc : c.fetched with _ | xc <;>
      simp [handle_delivery, delivery_loop, hxa, ha.2, hxb, hb.2, hfc, hc, hxd,
        hd.2, hxe, he.2]

/-- Witness for C8 with concrete per-item outcomes. -/
theorem delivery_third_of_five_fails_witness :
    handle_delivery [⟨some "f0", true⟩, ⟨some "f1", true⟩, ⟨none, true⟩,
      ⟨some "f3", true⟩, ⟨some "f4", true⟩] = (5, 4, 1, [0, 1, 3, 4]) :=
  delivery_third_of_five_fails _ _ _ _ _ ⟨rfl, rfl⟩ ⟨rfl, rfl⟩ (Or.inl rfl)
    ⟨rfl, rfl⟩ ⟨rfl, rfl⟩

/-- **C6.** Whenever all of a user's recorded instants are at least 60
seconds old at the time of the check, `is_allowed` returns `True` for that
user — whatever the rest of the state is (in particular after a previous
rejection at the ceiling). -/
theorem stale_user_allowed_again (rl : RateLimiter) (u : Int) (now : ℚ)
    (h : ∀ t ∈ (rl.user_requests u).getD [], 60 ≤ now - t) :
    (is_allowed rl u now).1 = true := by
  unfold is_allowed
  have hfilter :
      ((rl.user_requests u).getD []).filter (fun t => decide (now - t < 60)) = [] := by
    rw [List.filter_eq_nil_iff]
    intro t ht
    simpa using not_lt.mpr (h t ht)
  simp [hfilter, config.REQUESTS_PER_MINUTE]

/-- Witness for C6: a user previously rejected at the ceiling (20 recorded
instants) is allowed again 60 seconds later. -/
theorem stale_user_allowed_again_witness :
    (is_allowed ⟨fun u => if u = 1 then some (List.replicate 20 0) else none⟩
      1 60).1 = true :=
  stale_user_allowed_again _ 1 60 (by
    intro t ht
    simp only [if_pos rfl, Option.getD_some] at ht
    rw [List.eq_of_mem_replicate ht]
    norm_num)

/-- Counterexample to **C3** as stated: a user with a single in-window
request (so strictly under the per-minute ceiling) nevertheless gets a
non-zero wait time — `get_wait_time` never consults the limit. -/
theorem get_wait_time_under_limit_nonzero :
    ([(0 : ℚ)].filter (fun t => decide ((1 : ℚ) - t < 60))).length <
      config.REQUESTS_PER_MINUTE ∧
    get_wait_time ⟨fun u => if u = 1 then some [0] else none⟩ 1 1 = 59 := by
  constructor
  · norm_num [config.REQUESTS_PER_MINUTE]
  · norm_num [get_wait_time, listFoldMin]

/-- Case analysis of `get_wait_time`: non-negative; 0 when no recorded
instant is within the window; otherwise `60 − (now − oldest valid instant)`,
strictly positive. -/
theorem get_wait_time_cases (rl : RateLimiter) (u : Int) (now : ℚ) :
    0 ≤ get_wait_time rl u now ∧
    (((rl.user_requests u).getD []).filter (fun t => decide (now - t < 60)) = [] →
      get_wait_time rl u now = 0) ∧
    (∀ t ts,
      ((rl.user_requests u).getD []).filter (fun t => decide (now - t < 60)) = t :: ts →
      get_wait_time rl u now = 60 - (now - listFoldMin t ts) ∧
      0 < get_wait_time rl u now) := by
  rcases hru : rl.user_requests u with _ | reqs
  · refine ⟨by simp [get_wait_time, hru], fun _ => by simp [get_wait_time, hru],
      fun t ts habs => ?_⟩
    simp at habs
  · simp only [get_wait_time, hru, Option.getD_some]
    rcases hf : reqs.filter (fun t => decide (now - t < 60)) with _ | ⟨t, ts⟩
    · exact ⟨le_refl 0, fun _ => rfl, fun t ts habs => absurd habs (by simp)⟩
    · refine ⟨le_max_left 0 _, fun habs => absurd habs (by simp),
        fun t' ts' heq => ?_⟩
      injection heq with h1 h2
      subst h1; subst h2
      have hmem : listFoldMin t ts ∈ reqs.filter (fun t => decide (now - t < 60)) := by
        rw [hf]; exact listFoldMin_mem ts t
      have hlt : now - listFoldMin t ts < 60 :=
        of_decide_eq_true (List.mem_filter.mp hmem).2
      have hpos : 0 < 60 - (now - listFoldMin t ts) := by linarith
      dsimp only
      rw [max_eq_right (le_of_lt hpos)]
      exact ⟨rfl, hpos⟩

/-- **C3 (amended).** `get_wait_time` is non-negative; it returns 0 exactly
when the user has no recorded instant within the last 60 seconds (user
unknown, no history, or all history stale); otherwise — regardless of
whether the user is under the per-minute limit — it returns
`60 − (now − oldest in-window instant)`, which is strictly positive. -/
theorem get_wait_time_spec (rl : RateLimiter) (u : Int) (now : ℚ) :
    0 ≤ get_wait_time rl u now ∧
    (((rl.user_requests u).getD []).filter (fun t => decide (now - t < 60)) = [] →
      get_wait_time rl u now = 0) ∧
    (∀ t ts,
      ((rl.user_requests u).getD []).filter (fun t => decide (now - t < 60)) = t :: ts →
      get_wait_time rl u now = 60 - (now - listFoldMin t ts) ∧
      0 < get_wait_time rl u now) :=
  get_wait_time_cases rl u now

/-- Witness for C3 (amended): the user with history `[0]` at time 1 waits
exactly `60 − (1 − 0)` seconds, a positive value. -/
theorem get_wait_time_spec_witness :
    get_wait_time ⟨fun u => if u = 1 then some [0] else none⟩ 1 1 =
      60 - ((1 : ℚ) - listFoldMin 0 []) ∧
    0 < get_wait_time ⟨fun u => if u = 1 then some [0] else none⟩ 1 1 :=
  (get_wait_time_spec ⟨fun u => if u = 1 then some [0] else none⟩ 1 1).2.2 0 []
    (by norm_num)

/-! ### C5: the sliding-window behaviour of `is_allowed` -/

/-- While a user stays at or below the ceiling and all involved instants lie
within one 60-second window, every check is allowed and the recorded history
is exactly the instants seen so far. -/
theorem run_requests_under_limit (u : Int) :
    ∀ (ts : List ℚ) (rl : RateLimiter) (cur : List ℚ),
      (rl.user_requests u).getD [] = cur →
      cur.length + ts.length ≤ config.REQUESTS_PER_MINUTE →
      (cur ++ ts).Pairwise (fun a b => a ≤ b ∧ b - a < 60) →
      (run_requests u rl ts).1 = List.replicate ts.length true ∧
      ((run_requests u rl ts).2.user_requests u).getD [] = cur ++ ts := by
  intro ts
  induction ts with
  | nil => intro rl cur hcur _ _; exact ⟨rfl, by simpa using hcur⟩
  | cons t ts' ih =>
    intro rl cur hcur hlen hp
    have hcross : ∀ a ∈ cur, a ≤ t ∧ t - a < 60 := fun a ha =>
      (List.pairwise_append.mp hp).2.2 a ha t (by simp)
    have hvalid : cur.filter (fun s => decide (t - s < 60)) = cur :=
      List.filter_eq_self.mpr (fun a ha => decide_eq_true (hcross a ha).2)
    have hlen' : cur.length + ts'.length + 1 ≤ config.REQUESTS_PER_MINUTE := by
      rw [List.length_cons] at hlen
      omega
    have hstep : is_allowed rl u t =
        (true, ⟨fun v => if v = u then some (cur ++ [t]) else rl.user_requests v⟩) := by
      simp only [is_allowed]
      rw [hcur, hvalid]
      rw [if_neg (show ¬ config.REQUESTS_PER_MINUTE ≤ cur.length by omega)]
    have hih := ih ⟨fun v => if v = u then some (cur ++ [t]) else rl.user_requests v⟩
      (cur ++ [t]) (by dsimp only; rw [if_pos rfl]; rfl)
      (by simp only [List.length_append, List.length_cons, List.length_nil]; omega)
      (by rw [List.append_assoc]; exact hp)
    simp only [run_requests, hstep]
    refine ⟨?_, ?_⟩
    · rw [hih.1, List.length_cons, List.replicate_succ]
    · rw [hih.2, List.append_assoc]
      rfl

/-- Sequential runs split at an append. -/
theorem run_requests_append (u : Int) :
    ∀ (l₁ l₂ : List ℚ) (rl : RateLimiter),
      run_requests u rl (l₁ ++ l₂) =
        ((run_requests u rl l₁).1 ++ (run_requests u (run_requests u rl l₁).2 l₂).1,
         (run_requests u (run_requests u rl l₁).2 l₂).2) := by
  intro l₁
  induction l₁ with
  | nil => intro l₂ rl; rfl
  | cons t l ih =>
    intro l₂ rl
    simp only [List.cons_append, run_requests, List.append_eq, ih]

/-- **C5.** For a user issuing `N ≤ 20` requests inside one 60-second
window, every `is_allowed` check returns `True` and records the instant; a
21st request in the same window is rejected without recording a new instant
(the stored history stays exactly the 20 recorded instants), and
`get_wait_time` then returns a value strictly greater than 0 and at most
60. -/
theorem rate_limit_window (u : Int) (ts : List ℚ) (t21 : ℚ)
    (hp : (ts ++ [t21]).Pairwise (fun a b => a ≤ b ∧ b - a < 60)) :
    (ts.length ≤ config.REQUESTS_PER_MINUTE →
      (run_requests u initLimiter ts).1 = List.replicate ts.length true) ∧
    (ts.length = config.REQUESTS_PER_MINUTE →
      (run_requests u initLimiter (ts ++ [t21])).1 =
        List.replicate config.REQUESTS_PER_MINUTE true ++ [false] ∧
      ((run_requests u initLimiter (ts ++ [t21])).2).user_requests u = some ts ∧
      0 < get_wait_time (run_requests u initLimiter (ts ++ [t21])).2 u t21 ∧
      get_wait_time (run_requests u initLimiter (ts ++ [t21])).2 u t21 ≤ 60) := by
  have hpts : ts.Pairwise (fun a b => a ≤ b ∧ b - a < 60) :=
    hp.sublist (List.sublist_append_left _ _)
  constructor
  · intro hle
    exact (run_requests_under_limit u ts initLimiter [] rfl (by simpa using hle)
      (by simpa using hpts)).1
  · intro hlen
    have hmain := run_requests_under_limit u ts initLimiter [] rfl
      (by simp [hlen]) (by simpa using hpts)
    have hcross : ∀ a ∈ ts, a ≤ t21 ∧ t21 - a < 60 := fun a ha =>
      (List.pairwise_append.mp hp).2.2 a ha t21 (by simp)
    have hvalid : ts.filter (fun s => decide (t21 - s < 60)) = ts :=
      List.filter_eq_self.mpr (fun a ha => decide_eq_true (hcross a ha).2)
    have hstep : is_allowed (run_requests u initLimiter ts).2 u t21 =
        (false, ⟨fun v => if v = u then some ts
                          else (run_requests u initLimiter ts).2.user_requests v⟩) := by
      simp only [is_allowed]
      rw [hmain.2]
      simp only [List.nil_append]
      rw [hvalid, if_pos (le_of_eq hlen.symm)]
    have hrun : run_requests u initLimiter (ts ++ [t21]) =
        (List.replicate config.REQUESTS_PER_MINUTE true ++ [false],
         ⟨fun v => if v = u then some ts
                   else (run_requests u initLimiter ts).2.user_requests v⟩) := by
      rw [run_requests_append]
      simp only [run_requests, hstep]
      rw [hmain.1, hlen]
    rw [hrun]
    dsimp only
    refine ⟨rfl, by rw [if_pos rfl], ?_⟩
    have hne : ts ≠ [] := by
      intro h
      rw [h] at hlen
      simp [config.REQUESTS_PER_MINUTE] at hlen
    obtain ⟨t0, tsr, hts⟩ := List.exists_cons_of_ne_nil hne
    have hw := (get_wait_time_cases
      ⟨fun v => if v = u then some ts
                else (run_requests u initLimiter ts).2.user_requests v⟩ u t21).2.2
      t0 tsr (by
        dsimp only
        rw [if_pos rfl]
        simp only [Option.getD_some]
        rw [hvalid, hts])
    have hminmem : listFoldMin t0 tsr ∈ ts := by
      rw [hts]; exact listFoldMin_mem tsr t0
    have hminle : listFoldMin t0 tsr ≤ t21 := (hcross _ hminmem).1
    refine ⟨hw.2, ?_⟩
    rw [hw.1]
    linarith

/-- Any run of equal instants is pairwise inside one window. -/
theorem pairwise_zero_replicate :
    ∀ m, (List.replicate m (0 : ℚ)).Pairwise (fun a b => a ≤ b ∧ b - a < 60) := by
  intro m
  induction m with
  | zero => exact List.Pairwise.nil
  | succ k ih =>
    rw [List.replicate_succ]
    refine List.Pairwise.cons (fun b hb => ?_) ih
    rw [List.eq_of_mem_replicate hb]
    norm_num

/-- `(0, 0, …, 0)` is a valid 60-second window of instants. -/
theorem pairwise_zero_window (n : Nat) :
    (List.replicate n (0 : ℚ) ++ [0]).Pairwise (fun a b => a ≤ b ∧ b - a < 60) := by
  have h := pairwise_zero_replicate (n + 1)
  rwa [List.replicate_succ'] at h

/-! ### C1: de-duplication, first-seen order -/

/-- Python `==` is reflexive on hashable values. -/
theorem scalarEq_refl (u : Json) (h : unhashable u = false) :
    scalarEq u u = true := by
  cases u <;> simp_all [scalarEq, unhashable]

/-- On hashable values, `scalarEq` is equality. -/
theorem scalarEq_iff (u v : Json) (hu : unhashable u = false)
    (hv : unhashable v = false) : scalarEq u v = true ↔ u = v := by
  cases u <;> cases v <;> simp_all [scalarEq, unhashable]

/-- When every url is hashable, the Python dedup loop succeeds and computes
exactly the first-seen dedup. -/
theorem dedupPy_ok :
    ∀ (l : List MediaItem) (seen : List Json),
      (∀ it ∈ l, unhashable it.url = false) →
      dedupPy l seen = .ok (dedupFirstSeen l seen) := by
  intro l
  induction l with
  | nil => intro seen _; rfl
  | cons it rest ih =>
    intro seen h
    have hu : unhashable it.url = false := h it (by simp)
    simp only [dedupPy, dedupFirstSeen]
    rw [if_neg (show ¬ unhashable it.url = true by simp [hu])]
    by_cases hs : seen.any (scalarEq it.url) = true
    · rw [if_pos hs, if_pos hs]
      exact ih seen (fun x hx => h x (by simp [hx]))
    · rw [if_neg hs, if_neg hs]
      rw [ih (it.url :: seen) (fun x hx => h x (by simp [hx]))]

/-- The first-seen dedup is an order-preserving selection from its input. -/
theorem dedupFirstSeen_sublist :
    ∀ (l : List MediaItem) (seen : List Json), (dedupFirstSeen l seen).Sublist l := by
  intro l
  induction l with
  | nil => intro seen; simp [dedupFirstSeen]
  | cons it rest ih =>
    intro seen
    simp only [dedupFirstSeen]
    by_cases hs : seen.any (scalarEq it.url) = true
    · rw [if_pos hs]; exact (ih seen).cons it
    · rw [if_neg hs]; exact (ih (it.url :: seen)).cons₂ it

/-- A url survives the first-seen dedup iff it was discovered and was not
already seen. -/
theorem dedupFirstSeen_mem_urls :
    ∀ (l : List MediaItem) (seen : List Json),
      (∀ it ∈ l, unhashable it.url = false) →
      ∀ u, u ∈ (dedupFirstSeen l seen).map (fun it => it.url) ↔
        (u ∈ l.map (fun it => it.url) ∧ seen.any (scalarEq u) = false) := by
  intro l
  induction l with
  | nil => intro seen _ u; simp [dedupFirstSeen]
  | cons it rest ih =>
    intro seen h u
    have hu := h it (by simp)
    have hrest : ∀ x ∈ rest, unhashable x.url = false := fun x hx => h x (by simp [hx])
    simp only [dedupFirstSeen]
    by_cases hs : seen.any (scalarEq it.url) = true
    · rw [if_pos hs, ih seen hrest u]
      simp only [List.map_cons, List.mem_cons]
      constructor
      · rintro ⟨hm, hsn⟩; exact ⟨Or.inr hm, hsn⟩
      · rintro ⟨hm | hm, hsn⟩
        · subst hm; simp [hs] at hsn
        · exact ⟨hm, hsn⟩
    · rw [if_neg hs]
      simp only [List.map_cons, List.mem_cons]
      rw [ih (it.url :: seen) hrest u]
      simp only [List.any_cons]
      constructor
      · rintro (hm | ⟨hm, hsn⟩)
        · exact ⟨Or.inl hm, by rw [hm]; exact Bool.eq_false_iff.mpr hs⟩
        · rcases Bool.or_eq_false_iff.mp hsn with ⟨_, h2⟩
          exact ⟨Or.inr hm, h2⟩
      · rintro ⟨hm | hm, hsn⟩
        · exact Or.inl hm
        · by_cases he : scalarEq u it.url = true
          · obtain ⟨x, hxmem, hxe⟩ := List.mem_map.mp hm
            have huh : unhashable u = false := by
              rw [← hxe]; exact hrest x hxmem
            exact Or.inl ((scalarEq_iff u it.url huh hu).mp he)
          · refine Or.inr ⟨hm, ?_⟩
            rw [Bool.or_eq_false_iff]
            exact ⟨Bool.eq_false_iff.mpr he, hsn⟩

/-- After the first-seen dedup each url occurs exactly once. -/
theorem dedupFirstSeen_nodup :
    ∀ (l : List MediaItem) (seen : List Json),
      (∀ it ∈ l, unhashable it.url = false) →
      ((dedupFirstSeen l seen).map (fun it => it.url)).Nodup := by
  intro l
  induction l with
  | nil => intro seen _; simp [dedupFirstSeen]
  | cons it rest ih =>
    intro seen h
    have hu := h it (by simp)
    have hrest : ∀ x ∈ rest, unhashable x.url = false := fun x hx => h x (by simp [hx])
    simp only [dedupFirstSeen]
    by_cases hs : seen.any (scalarEq it.url) = true
    · rw [if_pos hs]; exact ih seen hrest
    · rw [if_neg hs]
      simp only [List.map_cons]
      rw [List.nodup_cons]
      refine ⟨fun habs => ?_, ih (it.url :: seen) hrest⟩
      have hthis := (dedupFirstSeen_mem_urls rest (it.url :: seen) hrest it.url).mp habs
      have h2 := hthis.2
      rw [List.any_cons, Bool.or_eq_false_iff] at h2
      have h1 := h2.1
      rw [scalarEq_refl it.url hu] at h1
      cases h1

/-- **C1.** When every discovered url is hashable (in particular whenever
they are strings, the only scalar case that occurs), the pipeline output is
exactly the first-seen dedup of the three strategies' concatenated output,
capped at 15; in that dedup each url occurs exactly once, the order is the
first-discovery order (an order-preserving sublist of
structured-data ++ embedded-state ++ direct-pattern items), and no
discovered url is lost. -/
theorem fetch_dedup_first_seen (blocks frags : List (Option Json)) (html : String)
    (hh : ∀ it ∈ all_media_items blocks frags html, unhashable it.url = false) :
    fetch_public_content blocks frags html =
      (dedupFirstSeen (all_media_items blocks frags html) []).take 15 ∧
    ((dedupFirstSeen (all_media_items blocks frags html) []).map
      (fun it => it.url)).Nodup ∧
    (dedupFirstSeen (all_media_items blocks frags html) []).Sublist
      (all_media_items blocks frags html) ∧
    (∀ u, u ∈ (dedupFirstSeen (all_media_items blocks frags html) []).map
            (fun it => it.url) ↔
          u ∈ (all_media_items blocks frags html).map (fun it => it.url)) := by
  refine ⟨?_, dedupFirstSeen_nodup _ [] hh, dedupFirstSeen_sublist _ [], fun u => ?_⟩
  · unfold fetch_public_content
    rw [dedupPy_ok _ [] hh]
  · rw [dedupFirstSeen_mem_urls _ [] hh u]
    simp

/-- Witness for C1: the spec's end-to-end example — one structured-data
video, a duplicate direct-pattern match of the same url, and an
embedded-state image under `"imageSrc"` — yields the video then the image,
each url once. -/
theorem fetch_dedup_first_seen_witness :
    fetch_public_content
        [some (.obj [("@type", .str "VideoObject"), ("contentUrl", .str "https://a.mp4")])]
        [some (.obj [("imageSrc", .str "https://b.jpg")])]
        "src=\"https://a.mp4\"" =
      (dedupFirstSeen (all_media_items
        [some (.obj [("@type", .str "VideoObject"), ("contentUrl", .str "https://a.mp4")])]
        [some (.obj [("imageSrc", .str "https://b.jpg")])]
        "src=\"https://a.mp4\"") []).take 15 ∧
    ((dedupFirstSeen (all_media_items
        [some (.obj [("@type", .str "VideoObject"), ("contentUrl", .str "https://a.mp4")])]
        [some (.obj [("imageSrc", .str "https://b.jpg")])]
        "src=\"https://a.mp4\"") []).map (fun it => it.url)).Nodup ∧
    (dedupFirstSeen (all_media_items
        [some (.obj [("@type", .str "VideoObject"), ("contentUrl", .str "https://a.mp4")])]
        [some (.obj [("imageSrc", .str "https://b.jpg")])]
        "src=\"https://a.mp4\"") []).Sublist
      (all_media_items
        [some (.obj [("@type", .str "VideoObject"), ("contentUrl", .str "https://a.mp4")])]
        [some (.obj [("imageSrc", .str "https://b.jpg")])]
        "src=\"https://a.mp4\"") ∧
    (∀ u, u ∈ (dedupFirstSeen (all_media_items
        [some (.obj [("@type", .str "VideoObject"), ("contentUrl", .str "https://a.mp4")])]
        [some (.obj [("imageSrc", .str "https://b.jpg")])]
        "src=\"https://a.mp4\"") []).map (fun it => it.url) ↔
          u ∈ (all_media_items
        [some (.obj [("@type", .str "VideoObject"), ("contentUrl", .str "https://a.mp4")])]
        [some (.obj [("imageSrc", .str "https://b.jpg")])]
        "src=\"https://a.mp4\"").map (fun it => it.url)) :=
  fetch_dedup_first_seen
    [some (.obj [("@type", .str "VideoObject"), ("contentUrl", .str "https://a.mp4")])]
    [some (.obj [("imageSrc", .str "https://b.jpg")])]
    "src=\"https://a.mp4\"" (by decide)

/-! ### C10: shapes of the emitted urls -/

theorem exists_of_mem_concatMap {f : α → List β} {l : List α} {b : β}
    (h : b ∈ concatMap f l) : ∃ x, x ∈ l ∧ b ∈ f x := by
  induction l with
  | nil => cases h
  | cons y l ih =>
    simp only [concatMap] at h
    rcases List.mem_append.mp h with h1 | h2
    · exact ⟨y, by simp, h1⟩
    · obtain ⟨x, hx, hb⟩ := ih h2
      exact ⟨x, by simp [hx], hb⟩

/-- A structured-data item is only emitted after the
`'http://' in url or 'https://' in url` guard succeeded. -/
theorem parse_json_item_scheme {it : Json} {mi : MediaItem}
    (h : parse_json_item it = .ok (some mi)) : schemeCheck mi.url = .ok true := by
  cases it with
  | obj kvs =>
    simp only [parse_json_item] at h
    split at h
    · exact Except.noConfusion h
    · split at h
      · split at h
        · split at h
          · exact Except.noConfusion h
          · exact Option.noConfusion (Except.ok.inj h)
          · rename_i heq
            split at h
            · exact Except.noConfusion h
            · have hmi := Option.some.inj (Except.ok.inj h)
              rw [← hmi]
              exact heq
        · exact Option.noConfusion (Except.ok.inj h)
      · exact Option.noConfusion (Except.ok.inj h)
  | null => simp [parse_json_item] at h
  | bool b => simp [parse_json_item] at h
  | num n => simp [parse_json_item] at h
  | str s => simp [parse_json_item] at h
  | arr l => simp [parse_json_item] at h

theorem parse_items_scheme :
    ∀ (l : List Json) (mi : MediaItem), mi ∈ (parse_items l).1 →
      schemeCheck mi.url = .ok true := by
  intro l
  induction l with
  | nil => intro mi h; cases h
  | cons it rest ih =>
    intro mi h
    simp only [parse_items] at h
    split at h
    · cases h
    · exact ih mi h
    · rename_i mi' heq
      rcases List.mem_cons.mp h with rfl | hm
      · exact parse_json_item_scheme heq
      · exact ih mi hm

theorem parse_block_scheme (d : Json) (mi : MediaItem)
    (h : mi ∈ (parse_block d).1) : schemeCheck mi.url = .ok true := by
  cases d with
  | arr l => exact parse_items_scheme l mi h
  | obj kvs =>
    simp only [parse_block] at h
    split at h
    · cases h
    · cases h
    · rename_i mi' heq
      rw [List.mem_singleton.mp h]
      exact parse_json_item_scheme heq
  | null => cases h
  | bool b => cases h
  | num n => cases h
  | str s => cases h

/-- **C10, strategy 1**: every JSON-LD item passed the containment check. -/
theorem extract_json_ld_scheme :
    ∀ (blocks : List (Option Json)) (mi : MediaItem), mi ∈ extract_json_ld blocks →
      schemeCheck mi.url = .ok true := by
  intro blocks
  induction blocks with
  | nil => intro mi h; cases h
  | cons b rest ih =>
    intro mi h
    cases b with
    | none => exact ih mi h
    | some d =>
      simp only [extract_json_ld] at h
      split at h
      · exact parse_block_scheme d mi h
      · rcases List.mem_append.mp h with h1 | h2
        · exact parse_block_scheme d mi h1
        · exact ih mi h2

/-- **C10, strategy 2**: every embedded-state item has a string url that
starts with `"http"` (the `value.startswith('http')` guard — not necessarily
a full scheme). -/
theorem traverse_go_url :
    ∀ (fuel : Nat) (data : Json) (mi : MediaItem), mi ∈ traverse_go fuel data →
      ∃ s, mi.url = .str s ∧ pyStartswith s "http" = true := by
  intro fuel
  induction fuel with
  | zero => intro data mi h; cases h
  | succ f ih =>
    intro data mi h
    cases data with
    | null => cases h
    | bool b => cases h
    | num n => cases h
    | str s => cases h
    | arr l =>
      rw [traverse_go] at h
      obtain ⟨x, _, hmem⟩ := exists_of_mem_concatMap h
      exact ih x mi hmem
    | obj kvs =>
      rw [traverse_go] at h
      obtain ⟨kv, _, hmem⟩ := exists_of_mem_concatMap h
      dsimp only at hmem
      split at hmem
      · split at hmem
        · rename_i s heqv
          split at hmem
          · rename_i hstart
            exact ⟨s, by rw [List.mem_singleton.mp hmem]; exact ⟨rfl, hstart⟩⟩
          · cases hmem
        · cases hmem
      · split at hmem
        · exact ih kv.2 mi hmem
        · exact ih kv.2 mi hmem
        · cases hmem

theorem extract_js_data_url (frags : List (Option Json)) (mi : MediaItem)
    (h : mi ∈ extract_js_data frags) :
    ∃ s, mi.url = .str s ∧ pyStartswith s "http" = true := by
  unfold extract_js_data at h
  obtain ⟨frag, _, hmem⟩ := exists_of_mem_concatMap h
  cases frag with
  | none => cases hmem
  | some d => exact traverse_go_url 11 d mi hmem

/-- Stripping a case-insensitive literal matches it letter for letter. -/
theorem ciSplitPre_spec :
    ∀ (ps l m r : List Char), ciSplitPre ps l = some (m, r) →
      m.map Char.toLower = ps.map Char.toLower ∧ l = m ++ r ∧ m.length = ps.length := by
  intro ps
  induction ps with
  | nil =>
    intro l m r h
    have h' := Option.some.inj h
    have hm : ([] : List Char) = m := congrArg Prod.fst h'
    have hr : l = r := congrArg Prod.snd h'
    subst hm; subst hr
    exact ⟨rfl, rfl, rfl⟩
  | cons p ps' ih =>
    intro l m r h
    cases l with
    | nil => exact Option.noConfusion h
    | cons c cs =>
      simp only [ciSplitPre] at h
      by_cases hci : ciEq p c = true
      · rw [if_pos hci] at h
        cases heqI : ciSplitPre ps' cs with
        | none => rw [heqI] at h; exact Option.noConfusion h
        | some pr =>
          rw [heqI] at h
          obtain ⟨m', r'⟩ := pr
          obtain ⟨hmap, hl, hlen⟩ := ih cs m' r' heqI
          have h' := Option.some.inj h
          have hm : c :: m' = m := congrArg Prod.fst h'
          have hr : r' = r := congrArg Prod.snd h'
          subst hm; subst hr
          have hc : c.toLower = p.toLower :=
            (beq_iff_eq.mp (by simpa [ciEq] using hci)).symm
          refine ⟨?_, ?_, ?_⟩
          · simp only [List.map_cons]
            rw [hc, hmap]
          · simp only [List.cons_append]
            rw [hl]
          · simp only [List.length_cons]
            rw [hlen]
      · rw [if_neg hci] at h
        exact Option.noConfusion h

/-- A successful capture starts (case-insensitively) with `https://`. -/
theorem captureAt_spec (ext l2 : List Char) (cap : String) (rem : List Char)
    (h : captureAt ext l2 = some (cap, rem)) :
    (cap.data.take 8).map Char.toLower = "https://".data := by
  unfold captureAt at h
  split at h
  · exact Option.noConfusion h
  · rename_i m rest2 heq
    split at h
    · exact Option.noConfusion h
    · split at h
      · split at h
        · have h' := Option.some.inj h
          have hcap : String.mk (m ++ rest2.takeWhile (fun c => c != '"')) = cap :=
            congrArg Prod.fst h'
          obtain ⟨hmap, _, hlen⟩ := ciSplitPre_spec _ _ _ _ heq
          rw [← hcap]
          show ((m ++ rest2.takeWhile (fun c => c != '"')).take 8).map Char.toLower =
            "https://".data
          have h8 : m.length = 8 := by rw [hlen]; rfl
          rw [← h8, List.take_left, hmap]
          rfl
        · exact Option.noConfusion h
      · exact Option.noConfusion h

theorem tryGaps_spec (pre2 ext l1 : List Char) :
    ∀ (n : Nat) (cap : String) (rem : List Char),
      tryGaps pre2 ext l1 n = some (cap, rem) →
      (cap.data.take 8).map Char.toLower = "https://".data := by
  intro n
  induction n with
  | zero => intro cap rem h; exact Option.noConfusion h
  | succ k ih =>
    intro cap rem h
    simp only [tryGaps] at h
    split at h
    · split at h
      · rename_i r heq
        obtain ⟨c1, c2⟩ := r
        have h' := Option.some.inj h
        have hc : c1 = cap := congrArg Prod.fst h'
        subst hc
        exact captureAt_spec _ _ _ _ heq
      · exact ih cap rem h
    · exact ih cap rem h

theorem matchAt_spec (p : UrlPattern) (ext l : List Char) (cap : String)
    (rem : List Char) (h : matchAt p ext l = some (cap, rem)) :
    (cap.data.take 8).map Char.toLower = "https://".data := by
  unfold matchAt at h
  split at h
  · exact Option.noConfusion h
  · split at h
    · exact tryGaps_spec _ _ _ _ _ _ h
    · exact captureAt_spec _ _ _ _ h

theorem scan_go_spec (p : UrlPattern) (ext : List Char) :
    ∀ (fuel : Nat) (l : List Char) (u : String), u ∈ scan_go p ext fuel l →
      (u.data.take 8).map Char.toLower = "https://".data := by
  intro fuel
  induction fuel with
  | zero => intro l u h; cases h
  | succ f ih =>
    intro l u h
    cases l with
    | nil => cases h
    | cons c rest =>
      rw [scan_go] at h
      split at h
      · rename_i cap rem heq
        rcases List.mem_cons.mp h with rfl | hm
        · exact matchAt_spec p ext (c :: rest) u rem heq
        · exact ih _ u hm
      · exact ih rest u h

/-- **C10, strategy 3**: every direct-pattern url is a string starting
(case-insensitively, per `re.IGNORECASE`) with `https://`. -/
theorem extract_direct_urls_url (html : String) (mi : MediaItem)
    (h : mi ∈ extract_direct_urls html) :
    ∃ s, mi.url = .str s ∧ (s.data.take 8).map Char.toLower = "https://".data := by
  unfold extract_direct_urls at h
  rcases List.mem_append.mp h with h1 | h1 <;>
  · obtain ⟨p, _, hmem⟩ := exists_of_mem_concatMap h1
    obtain ⟨u, hu, heq⟩ := List.mem_map.mp hmem
    subst heq
    exact ⟨u, rfl, scan_go_spec p _ _ _ u hu⟩

/-- **Counterexample to C10 as stated**: the structured-data strategy checks
`'http://' in url` — substring containment, not a prefix — so a JSON-LD
video whose `contentUrl` is `"id=1 https://cdn.example/v.mp4"` is emitted
by the whole pipeline although its url begins with no network scheme; the
embedded-state strategy checks only `startswith('http')`, so a fragment
value `"httpx//e"` is likewise emitted. -/
theorem extracted_url_scheme_counterexample :
    fetch_public_content
        [some (.obj [("@type", .str "VideoObject"),
                     ("contentUrl", .str "id=1 https://cdn.example/v.mp4")])] [] "" =
      [{ url := .str "id=1 https://cdn.example/v.mp4", type := "video",
         thumbnail := .null, description := .str "", source := none }] ∧
    pyStartswith "id=1 https://cdn.example/v.mp4" "http://" = false ∧
    pyStartswith "id=1 https://cdn.example/v.mp4" "https://" = false ∧
    extract_js_data [some (.obj [("videoUrl", .str "httpx//e")])] =
      [{ url := .str "httpx//e", type := "video", thumbnail := .null,
         description := .null, source := some "json" }] ∧
    pyStartswith "httpx//e" "http://" = false ∧
    pyStartswith "httpx//e" "https://" = false :=
  ⟨rfl, rfl, rfl, rfl, rfl, rfl⟩

/-- **C10 (amended).** Every item produced by the structured-data strategy
has a url that passed Python's containment test
`'http://' in url or 'https://' in url` (substring, not prefix); every item
from the embedded-state strategy has a string url beginning with `"http"`
(not necessarily a full scheme); every item from the direct-pattern strategy
has a string url beginning case-insensitively with `"https://"`. -/
theorem extracted_url_shapes :
    (∀ (blocks : List (Option Json)) (mi : MediaItem), mi ∈ extract_json_ld blocks →
      schemeCheck mi.url = .ok true) ∧
    (∀ (frags : List (Option Json)) (mi : MediaItem), mi ∈ extract_js_data frags →
      ∃ s, mi.url = .str s ∧ pyStartswith s "http" = true) ∧
    (∀ (html : String) (mi : MediaItem), mi ∈ extract_direct_urls html →
      ∃ s, mi.url = .str s ∧ (s.data.take 8).map Char.toLower = "https://".data) :=
  ⟨extract_json_ld_scheme, extract_js_data_url, extract_direct_urls_url⟩

/-- Witness for C10 (amended) at one concrete item per strategy. -/
theorem extracted_url_shapes_witness :
    schemeCheck ({ url := .str "https://g.mp4", type := "video",
                   thumbnail := .null, description := .str "",
                   source := none } : MediaItem).url = .ok true ∧
    (∃ s, ({ url := .str "https://b.jpg", type := "image", thumbnail := .null,
             description := .null, source := some "json" } : MediaItem).url = .str s ∧
      pyStartswith s "http" = true) ∧
    (∃ s, ({ url := .str "https://a.mp4", type := "video", thumbnail := .null,
             description := .null, source := none } : MediaItem).url = .str s ∧
      (s.data.take 8).map Char.toLower = "https://".data) :=
  ⟨extracted_url_shapes.1
      [some (.obj [("@type", .str "VideoObject"), ("contentUrl", .str "https://g.mp4")])]
      _ (List.mem_singleton.mpr rfl),
   extracted_url_shapes.2.1 [some (.obj [("imageSrc", .str "https://b.jpg")])]
      _ (List.mem_singleton.mpr rfl),
   extracted_url_shapes.2.2 "src=\"https://a.mp4\""
      _ (List.mem_singleton.mpr rfl)⟩

/-! ### C4: safety of the extraction pipeline -/

/-- **Counterexample to C4 as stated**: a JSON-LD block that *parses* but is
ill-typed (a list containing the number 5, so `item.get` raises
`AttributeError`, which only the outer `except Exception: pass` catches)
aborts the remaining JSON-LD blocks: with the bad block in front, the
well-formed video block behind it is lost, both in the strategy and in the
whole pipeline, so a malformed block is *not* always "skipped individually
without aborting the other blocks". -/
theorem json_ld_bad_block_aborts_rest :
    extract_json_ld [some (.arr [.num 5]),
      some (.obj [("@type", .str "VideoObject"),
                  ("contentUrl", .str "https://g.mp4")])] = [] ∧
    extract_json_ld [some (.obj [("@type", .str "VideoObject"),
                  ("contentUrl", .str "https://g.mp4")])] =
      [{ url := .str "https://g.mp4", type := "video", thumbnail := .null,
         description := .str "", source := none }] ∧
    fetch_public_content [some (.arr [.num 5]),
      some (.obj [("@type", .str "VideoObject"),
                  ("contentUrl", .str "https://g.mp4")])] [] "" = [] ∧
    fetch_public_content [some (.obj [("@type", .str "VideoObject"),
                  ("contentUrl", .str "https://g.mp4")])] [] "" =
      [{ url := .str "https://g.mp4", type := "video", thumbnail := .null,
         description := .str "", source := none }] :=
  ⟨rfl, rfl, rfl, rfl⟩

/-- **C4 (amended).** The pipeline is total (never raises — every modelled
exception is caught at a strategy boundary or at line 67) and returns at
most 15 items; a block or fragment whose JSON *parse* failed is skipped
individually, leaving the other blocks and strategies untouched.  (Per the
counterexample, a block that parses to ill-typed JSON-LD instead aborts the
*remaining structured-data blocks*, though the other two strategies still
run.) -/
theorem extraction_safe :
    (∀ (blocks frags : List (Option Json)) (html : String),
      (fetch_public_content blocks frags html).length ≤ 15) ∧
    (∀ (xs ys : List (Option Json)),
      extract_json_ld (xs ++ none :: ys) = extract_json_ld (xs ++ ys)) ∧
    (∀ (xs ys : List (Option Json)),
      extract_js_data (xs ++ none :: ys) = extract_js_data (xs ++ ys)) := by
  refine ⟨fun blocks frags html => ?_, fun xs ys => ?_, fun xs ys => ?_⟩
  · unfold fetch_public_content
    split
    · rw [List.length_take]
      exact min_le_left _ _
    · simp
  · induction xs with
    | nil => rfl
    | cons b xs ih =>
      cases b with
      | none =>
        simp only [List.cons_append, extract_json_ld]
        exact ih
      | some d =>
        simp only [List.cons_append, extract_json_ld, List.append_eq]
        rw [ih]
  · unfold extract_js_data
    rw [concatMap_append, concatMap_append]
    rfl

/-! ### C9: the depth-bounded JSON traversal -/

/-- Below the depth guard the traversal emits nothing (the `depth > 10`
check). -/
theorem traverse_guard (data : Json) (d : Nat) (hd : 10 < d) :
    traverse_json_for_media data d = [] := by
  unfold traverse_json_for_media
  have h : 11 - d = 0 := by omega
  rw [h]
  rfl

/-- The traversal never reads below its fuel: pruning the input one level
under the remaining fuel changes nothing. -/
theorem traverse_go_prune :
    ∀ (fuel : Nat) (data : Json),
      traverse_go fuel data = traverse_go fuel (prune (fuel + 1) data) := by
  intro fuel
  induction fuel with
  | zero => intro data; rfl
  | succ f ih =>
    intro data
    cases data with
    | null => rfl
    | bool b => rfl
    | num n => rfl
    | str s => rfl
    | arr l =>
      simp only [traverse_go, prune]
      rw [concatMap_map]
      exact concatMap_congr (fun x _ => ih x)
    | obj kvs =>
      simp only [traverse_go, prune]
      rw [concatMap_map]
      refine concatMap_congr (fun kv _ => ?_)
      dsimp only
      by_cases hk : mediaKeyHit (pyStrLower kv.1)
      · rw [if_pos hk, if_pos hk]
        cases kv.2 <;> rfl
      · rw [if_neg hk, if_neg hk]
        cases kv.2 with
        | null => rfl
        | bool b => rfl
        | num n => rfl
        | str s => rfl
        | arr l2 => simp only [prune]; exact ih (.arr l2)
        | obj l2 => simp only [prune]; exact ih (.obj l2)

/-- Within the bound, a media-keyed string entry starting with a scheme is
emitted. -/
theorem traverse_emits (d : Nat) (kvs : List (String × Json)) (k s : String)
    (hd : d ≤ 10) (hmem : (k, Json.str s) ∈ kvs)
    (hk : mediaKeyHit (pyStrLower k) = true)
    (hs : pyStartswith s "http://" = true ∨ pyStartswith s "https://" = true) :
    traverseItem (pyStrLower k) s ∈ traverse_json_for_media (.obj kvs) d := by
  unfold traverse_json_for_media
  obtain ⟨f, hf⟩ : ∃ f, 11 - d = f + 1 := ⟨10 - d, by omega⟩
  rw [hf]
  have hstart : pyStartswith s "http" = true := by
    rcases hs with h | h
    · exact isPre_trans (by decide) h
    · exact isPre_trans (by decide) h
  show traverseItem (pyStrLower k) s ∈ concatMap _ kvs
  apply mem_concatMap (k, Json.str s) hmem
  dsimp only
  rw [if_pos hk]
  rw [if_pos hstart]
  exact List.mem_singleton.mpr rfl

/-- **C9.** The embedded-state traversal is a total, depth-bounded
computation: (a) at depth greater than 10 it emits nothing; (b) its output
from the root depends only on the top 12 levels of the value (the bounded
mappings and their immediate entries) — deeper nesting is never read; (c)
within the bound every mapping entry whose key contains a media key and
whose string value begins with a network scheme yields its item; (d) the
item is typed "video" exactly when the key contains "video". -/
theorem traverse_depth_bounded :
    (∀ (data : Json) (d : Nat), 10 < d → traverse_json_for_media data d = []) ∧
    (∀ data : Json,
      traverse_json_for_media data 0 = traverse_json_for_media (prune 12 data) 0) ∧
    (∀ (d : Nat) (kvs : List (String × Json)) (k s : String),
      d ≤ 10 → (k, Json.str s) ∈ kvs → mediaKeyHit (pyStrLower k) = true →
      (pyStartswith s "http://" = true ∨ pyStartswith s "https://" = true) →
      traverseItem (pyStrLower k) s ∈ traverse_json_for_media (.obj kvs) d) ∧
    (∀ k s : String, (traverseItem k s).type = "video" ↔ strContains k "video" = true) := by
  refine ⟨traverse_guard, fun data => traverse_go_prune 11 data,
    traverse_emits, fun k s => ?_⟩
  unfold traverseItem
  by_cases h : strContains k "video" = true
  · rw [if_pos h]; simpa using h
  · rw [if_neg h]
    constructor
    · intro habs; simp at habs
    · intro habs; exact absurd habs h

/-- Witness for C9: at depth 11 a media entry is ignored, at depth 10 (and
from the root of a shallow fragment) it is emitted. -/
theorem traverse_depth_bounded_witness :
    traverse_json_for_media (.obj [("videoUrl", .str "https://v.mp4")]) 11 = [] ∧
    traverseItem (pyStrLower "videoUrl") "https://v.mp4" ∈
      traverse_json_for_media (.obj [("videoUrl", .str "https://v.mp4")]) 10 ∧
    ((traverseItem "videourl" "https://v.mp4").type = "video" ↔
      strContains "videourl" "video" = true) :=
  ⟨traverse_depth_bounded.1 _ 11 (by omega),
   traverse_depth_bounded.2.2.1 10 _ "videoUrl" "https://v.mp4" (by omega)
     (by simp) (by decide) (Or.inr (by decide)),
   traverse_depth_bounded.2.2.2 "videourl" "https://v.mp4"⟩

/-- Witness for C5: 21 requests at instant 0 — the first 20 allowed, the
21st rejected with the history unchanged and a wait time in `(0, 60]`. -/
theorem rate_limit_window_witness :
    (run_requests 1 initLimiter (List.replicate 20 (0 : ℚ))).1 =
      List.replicate 20 true ∧
    (run_requests 1 initLimiter (List.replicate 20 (0 : ℚ) ++ [0])).1 =
      List.replicate config.REQUESTS_PER_MINUTE true ++ [false] ∧
    ((run_requests 1 initLimiter (List.replicate 20 (0 : ℚ) ++ [0])).2).user_requests 1 =
      some (List.replicate 20 0) ∧
    0 < get_wait_time (run_requests 1 initLimiter (List.replicate 20 (0 : ℚ) ++ [0])).2 1 0 ∧
    get_wait_time (run_requests 1 initLimiter (List.replicate 20 (0 : ℚ) ++ [0])).2 1 0 ≤ 60 := by
  have h := rate_limit_window 1 (List.replicate 20 0) 0 (pairwise_zero_window 20)
  have h2 := h.2 (by simp [config.REQUESTS_PER_MINUTE])
  exact ⟨by simpa using h.1 (by simp [config.REQUESTS_PER_MINUTE]), h2.1, h2.2.1,
    h2.2.2.1, h2.2.2.2⟩

end Snap
